import Mathlib

/-!
Verification of the forex country/exchange-rate service.

A shallow embedding of the Go repository `justinndidit/forex` (packages
`internal/model`, `internal/repository`, `internal/handler`, `internal/util`)
together with proofs about its documented behaviour.

Modelling conventions:
* Go `sql.NullString` / `sql.NullFloat64` / `sql.NullTime` collapse to `Option`
  (`Valid = false` is `none`; the stored value of an invalid field is never read).
* `float64` values (exchange rates, estimated GDP, the random multiplier) are
  modelled as exact rationals `Rat`.
* `time.Time` values are modelled as abstract `Nat` instants.
* The MySQL `utf8mb4_unicode_ci` collation (set on every table of the
  migrations, in particular on the unique key `countries.name`) is modelled as
  case-insensitive string equality via ASCII case folding.
* Go maps decoded from JSON distinguish a nil map (field absent / `null`) from
  a present-but-empty map; we model `ExchangeRates.Rates` as
  `Option (List (String × Rat))` where `none` is the nil map.
* Database faults are modelled by explicit failure oracles (one `Bool` per
  statement the Go code executes).
-/

namespace Forex

/-! ## Strings and collation -/

/-- ASCII case folding (model of `strings.ToLower`, which the handler applies
to names, capitals and regions; the claims only exercise ASCII data). -/
def lowerAscii (s : String) : String := ⟨s.data.map Char.toLower⟩

/-- Model of MySQL string equality under the `utf8mb4_unicode_ci` collation
used by every column of the `countries` table (migration
`000001_0001_create_initial_tables.sql`): comparison is case-insensitive. -/
def sqlStrEq (a b : String) : Bool := lowerAscii a == lowerAscii b

/-! ## Data model (`internal/model/forex.go`) -/

/-- Model of `model.CountryCurrency`. -/
structure CountryCurrency where
  code : String
deriving DecidableEq, Repr

/-- Model of `model.Country` — one entry of the decoded countries payload. -/
structure Country where
  name : String
  capital : String
  region : String
  population : Int
  flagURL : String
  currencies : List CountryCurrency
deriving DecidableEq, Repr

/-- Model of `model.ExchangeRates.Rates` — the decoded rate mapping.  `none` models a
nil Go map (the `rates` field absent or `null` in the payload); `some m` a
present map, possibly empty (a rates field holding an empty object decodes to a non-nil empty map). -/
abbrev RatesMap := Option (List (String × Rat))

/-- Go map indexing `rates[code]` (exact, case-sensitive key equality). -/
def lookupRate (m : List (String × Rat)) (code : String) : Option Rat :=
  (m.find? (fun p => p.1 == code)).map (·.2)

/-- Model of `model.CountryDBRow` — a row of the `countries` table. -/
structure CountryDBRow where
  id : Int := 0
  name : String
  capital : Option String
  region : Option String
  population : Int
  currencyCode : Option String
  exchangeRate : Option Rat
  estimatedGDP : Option Rat
  flagURL : Option String
  lastRefreshedAt : Option Nat
deriving DecidableEq, Repr

/-- Model of `model.CountryResponse` — the external JSON shape of one country. -/
structure CountryResponse where
  id : Int
  name : String
  capital : Option String
  region : Option String
  population : Int
  currencyCode : Option String
  exchangeRate : Option Rat
  estimatedGDP : Option Rat
  flagURL : Option String
  lastRefreshedAt : Option Nat
deriving DecidableEq, Repr

/-- Model of `CountryDBRow.ToResponse` — copies every field, turning each invalid
`sql.Null*` into a nil pointer (here: `none`). -/
def CountryDBRow.toResponse (db : CountryDBRow) : CountryResponse :=
  { id := db.id
    name := db.name
    capital := db.capital
    region := db.region
    population := db.population
    currencyCode := db.currencyCode
    exchangeRate := db.exchangeRate
    estimatedGDP := db.estimatedGDP
    flagURL := db.flagURL
    lastRefreshedAt := db.lastRefreshedAt }

/-- Model of `model.ToCountryResponses`.  Go slices distinguish nil from empty; we model
a Go slice as `Option (List α)` (`none` = nil slice).  `ToCountryResponses`
always returns the result of `make([]CountryResponse, len(...))`, which is an
allocated (non-nil) slice even for length 0. -/
def toCountryResponses (s : Option (List CountryDBRow)) : Option (List CountryResponse) :=
  some ((s.getD []).map CountryDBRow.toResponse)

/-- Model of `model.Stats`. -/
structure Stats where
  totalCountries : Int
  lastRefreshedAt : Option Nat
deriving DecidableEq, Repr

/-- Model of `model.StatsResponse`. -/
structure StatsResponse where
  totalCountries : Int
  lastRefreshedAt : Option Nat
deriving DecidableEq, Repr

/-- Model of `Stats.ToResponse`. -/
def Stats.toResponse (s : Stats) : StatsResponse :=
  { totalCountries := s.totalCountries, lastRefreshedAt := s.lastRefreshedAt }

/-! ## JSON (model of Go `encoding/json` on the response structs) -/

/-- A JSON value. -/
inductive Json where
  | null
  | str (s : String)
  | num (q : Rat)
  | arr (elems : List Json)
  | obj (fields : List (String × Json))
deriving Repr

/-- Go `encoding/json` renders a nil pointer field as `null` and a non-nil
pointer as the pointee's encoding. -/
def encOpt (f : α → Json) : Option α → Json
  | none => Json.null
  | some v => f v

/-- Encoding of `CountryResponse`: fields in struct order, names from the
`json:"..."` tags; every optional (pointer) field is `null` when unset.
`time.Time` is abstracted as a number. -/
def encodeCountryResponse (c : CountryResponse) : Json :=
  Json.obj
    [ ("id", Json.num c.id)
    , ("name", Json.str c.name)
    , ("capital", encOpt Json.str c.capital)
    , ("region", encOpt Json.str c.region)
    , ("population", Json.num c.population)
    , ("currency_code", encOpt Json.str c.currencyCode)
    , ("exchange_rate", encOpt Json.num c.exchangeRate)
    , ("estimated_gdp", encOpt Json.num c.estimatedGDP)
    , ("flag_url", encOpt Json.str c.flagURL)
    , ("last_refreshed_at", encOpt (fun t => Json.num t) c.lastRefreshedAt) ]

/-- Encoding of `StatsResponse`. -/
def encodeStatsResponse (s : StatsResponse) : Json :=
  Json.obj
    [ ("total_countries", Json.num s.totalCountries)
    , ("last_refreshed_at", encOpt (fun t => Json.num t) s.lastRefreshedAt) ]

/-- Encoding of a Go slice: a nil slice encodes as `null`, an allocated slice
as a JSON array. -/
def encodeGoSlice (f : α → Json) : Option (List α) → Json
  | none => Json.null
  | some l => Json.arr (l.map f)

/-- Field lookup in an encoded JSON object. -/
def jsonField : Json → String → Option Json
  | Json.obj fields, k => fields.lookup k
  | _, _ => none

/-! ## Persistent state (`countries` table and the `app_status` singleton) -/

/-- The database state owned by the Store: the `countries` table (unique key
on the ci-collated `name`) and `app_status.last_refreshed_at` for id = 1. -/
structure DBState where
  countries : List CountryDBRow
  appStatusLastRefreshedAt : Option Nat
deriving DecidableEq, Repr

/-- The `countries` table invariant enforced by `UNIQUE KEY (name)` under the
ci collation: no two rows have ci-equal names. -/
def ciNodup (l : List CountryDBRow) : Prop :=
  l.Pairwise (fun a b => sqlStrEq a.name b.name = false)

/-! ## `UpdateCountries` (`internal/repository/repository.go`, lines 36-140)

One MySQL transaction: drop + create `temp_countries`, bulk-insert the rows in
chunks of `batchSize = 1000`, `INSERT ... SELECT * FROM temp_countries ON
DUPLICATE KEY UPDATE`, update `app_status`, commit.  Any error returns before
`tx.Commit()`, so the deferred `tx.Rollback()` discards all transactional
work.  Each statement may fail; a failure oracle decides which. -/

/-- Standard batch size for bulk inserts (`batchSize` constant). -/
def batchSize : Nat := 1000

/-- The statements executed by `UpdateCountries`, as failure-injection
points.  `chunk i` is the bulk insert of the i-th batch of rows. -/
inductive TxStep where
  | beginTx
  | dropTemp
  | createTemp
  | chunk (i : Nat)
  | merge
  | updateStatus
  | commit
deriving DecidableEq, Repr

/-- The batches the Go loop `for i := 0; i < len(rows); i += batchSize` forms:
batch `i` is `rows[i*n : i*n+n]`. -/
def chunksOfAux (n : Nat) : Nat → List α → List (List α)
  | 0, _ => []
  | _, [] => []
  | fuel+1, l => l.take n :: chunksOfAux n fuel (l.drop n)

def chunksOf (n : Nat) (l : List α) : List (List α) := chunksOfAux n l.length l

/-- Insert one row into the staging table.  `temp_countries` has
`name ... PRIMARY KEY` under the ci collation, so a plain `INSERT` of a
ci-duplicate name is a statement error. -/
def tempInsertRow (temp : List CountryDBRow) (row : CountryDBRow) : Option (List CountryDBRow) :=
  if temp.any (fun r => sqlStrEq r.name row.name) then none
  else some (temp ++ [row])

/-- One multi-row `INSERT INTO temp_countries ... VALUES (...),(...)`. -/
def insertChunkRows (temp : List CountryDBRow) (batch : List CountryDBRow) :
    Option (List CountryDBRow) :=
  batch.foldlM tempInsertRow temp

/-- The whole staging step: the chunked bulk insert into `temp_countries`
(skipped when there are no rows, which `chunksOf` makes vacuous).  `failChunk
i` makes the i-th `ExecContext` fail. -/
def stageRows (failChunk : Nat → Bool) (rows : List CountryDBRow) :
    Option (List CountryDBRow) :=
  (chunksOf batchSize rows).enum.foldlM
    (fun temp p => if failChunk p.1 then none else insertChunkRows temp p.2) []

/-- Model of `ON DUPLICATE KEY UPDATE`: the key is the unique ci-collated `name`; on
collision every non-key column is overwritten while `id` and the stored
`name` spelling are kept; otherwise the row is inserted. -/
def upsertRow (table : List CountryDBRow) (row : CountryDBRow) : List CountryDBRow :=
  match table with
  | [] => [row]
  | old :: rest =>
    if sqlStrEq old.name row.name then
      { row with id := old.id, name := old.name } :: rest
    else
      old :: upsertRow rest row

/-- Model of `INSERT INTO countries SELECT * FROM temp_countries ON DUPLICATE KEY
UPDATE ...` — every staged row merged in order. -/
def upsertAll (table : List CountryDBRow) (rows : List CountryDBRow) : List CountryDBRow :=
  rows.foldl upsertRow table

/-- Model of `ForexRepository.UpdateCountries`.  Returns the state visible after the
call and whether it returned nil.  All statements run inside one transaction:
an error return triggers the deferred rollback, so the pre-call state is kept;
only `tx.Commit()` publishes the staged work. -/
def updateCountries (fail : TxStep → Bool) (st : DBState)
    (rowsToInsert : List CountryDBRow) (refreshTime : Nat) : DBState × Bool :=
  if fail TxStep.beginTx then (st, false)
  else if fail TxStep.dropTemp then (st, false)
  else if fail TxStep.createTemp then (st, false)
  else
    match stageRows (fun i => fail (TxStep.chunk i)) rowsToInsert with
    | none => (st, false)
    | some temp =>
      if fail TxStep.merge then (st, false)
      else if fail TxStep.updateStatus then (st, false)
      else if fail TxStep.commit then (st, false)
      else ({ countries := upsertAll st.countries temp,
              appStatusLastRefreshedAt := some refreshTime }, true)

/-! ## Query layer (`GetCountries`, `GetTop5ByGDP`) -/

/-- Model of `model.CountryFilters`. -/
structure CountryFilters where
  region : Option String
  currency : Option String
  sortKey : String
deriving Repr

/-- The `WHERE` conjunction `GetCountries` builds: absent filters impose no
constraint; equality on ci-collated columns. -/
def matchesFilters (f : CountryFilters) (r : CountryDBRow) : Bool :=
  (match f.region with
   | none => true
   | some reg => sqlStrEq (r.region.getD "") reg && r.region.isSome) &&
  (match f.currency with
   | none => true
   | some cur => sqlStrEq (r.currencyCode.getD "") cur && r.currencyCode.isSome)

/-- Model of `ORDER BY estimated_gdp IS NULL ASC, estimated_gdp DESC` (the `gdp_desc`
branch and `GetTop5ByGDP`): rows with a gdp before null-gdp rows, non-null
group descending. -/
def gdpDescLe (a b : CountryDBRow) : Bool :=
  match a.estimatedGDP, b.estimatedGDP with
  | some x, some y => decide (y ≤ x)
  | some _, none => true
  | none, some _ => false
  | none, none => true

/-- Model of `ORDER BY estimated_gdp IS NULL DESC, estimated_gdp ASC` (the `gdp_asc`
branch, commented `NULLS FIRST` in the source): null-gdp rows first, non-null
group ascending. -/
def gdpAscLe (a b : CountryDBRow) : Bool :=
  match a.estimatedGDP, b.estimatedGDP with
  | some x, some y => decide (x ≤ y)
  | some _, none => false
  | none, _ => true

/-- Model of `ORDER BY population DESC`. -/
def popDescLe (a b : CountryDBRow) : Bool := decide (b.population ≤ a.population)

/-- Model of `ORDER BY population ASC`. -/
def popAscLe (a b : CountryDBRow) : Bool := decide (a.population ≤ b.population)

/-- Model of `ORDER BY name DESC` under the ci collation. -/
def nameDescLe (a b : CountryDBRow) : Bool :=
  decide (¬ lowerAscii a.name < lowerAscii b.name)

/-- Model of `ORDER BY name ASC` (the whitelist default) under the ci collation. -/
def nameAscLe (a b : CountryDBRow) : Bool :=
  decide (¬ lowerAscii b.name < lowerAscii a.name)

/-- The sort-key whitelist `switch filters.SortKey` (unknown keys fall back to
`name ASC`). -/
def sortRel (key : String) : CountryDBRow → CountryDBRow → Bool :=
  match key with
  | "gdp_desc" => gdpDescLe
  | "gdp_asc" => gdpAscLe
  | "population_desc" => popDescLe
  | "population_asc" => popAscLe
  | "name_desc" => nameDescLe
  | _ => nameAscLe

/-- The `ORDER BY` clause as a sort of the result set. -/
def sortCountries (key : String) (rows : List CountryDBRow) : List CountryDBRow :=
  List.insertionSort (fun a b => sortRel key a b = true) rows

/-- Model of `ForexRepository.GetCountries`: `WHERE` conjunction then `ORDER BY`. -/
def getCountries (st : DBState) (f : CountryFilters) : List CountryDBRow :=
  sortCountries f.sortKey (st.countries.filter (matchesFilters f))

/-- Model of `ForexRepository.GetTop5ByGDP`: the gdp-desc/nulls-last ordering with
`LIMIT 5`. -/
def getTop5ByGDP (st : DBState) : List CountryDBRow :=
  (List.insertionSort (fun a b => gdpDescLe a b = true) st.countries).take 5

/-! ## Lookup, delete, stats -/

/-- The repository's error classes: `errs.ErrNotFound` vs any other error. -/
inductive RepoError where
  | notFound
  | internal
deriving DecidableEq, Repr

/-- Model of `GetCountryByName`: `WHERE name = ?` under the ci collation; `QueryRowContext` takes the first
matching row, `sql.ErrNoRows` becomes `errs.ErrNotFound`. -/
def getCountryByName (st : DBState) (name : String) : Except RepoError CountryDBRow :=
  match st.countries.find? (fun r => sqlStrEq r.name name) with
  | none => Except.error RepoError.notFound
  | some c => Except.ok c

/-- Model of `ForexRepository.DeleteByName`: `DELETE ... WHERE name = ?`; a failed
exec is wrapped as a generic error; zero rows affected becomes
`errs.ErrNotFound`. -/
def deleteByName (execFails : Bool) (st : DBState) (name : String) :
    DBState × Except RepoError Unit :=
  if execFails then (st, Except.error RepoError.internal)
  else
    let rowsAffected := st.countries.countP (fun r => sqlStrEq r.name name)
    if rowsAffected = 0 then (st, Except.error RepoError.notFound)
    else ({ st with countries := st.countries.filter (fun r => ¬ sqlStrEq r.name name) },
          Except.ok ())

/-- Model of `ForexRepository.GetStats`. -/
def getStats (st : DBState) : Stats :=
  { totalCountries := st.countries.length
    lastRefreshedAt := st.appStatusLastRefreshedAt }

/-- Model of `scanCountries`: starts from the allocated empty slice
`[]model.CountryDBRow{}` and appends every scanned row, so the result is never
a nil slice. -/
def scanCountries (rows : List CountryDBRow) : Option (List CountryDBRow) :=
  rows.foldl (fun acc c => some (acc.getD [] ++ [c])) (some [])

/-! ## HTTP handlers (`internal/handler/handler.go`, `internal/util`) -/

/-- The response a handler writes: a status code and an optional JSON body
(`HandleDeleteCountryByName` writes 204 with no body). -/
structure HttpResponse where
  status : Nat
  body : Option Json
deriving Repr

/-- Model of `util.WriteJsonError`: an error object with the message, the
details field omitted when nil (its json tag carries omitempty). -/
def writeJsonError (status : Nat) (message : String) (details : Option String) :
    HttpResponse :=
  { status := status
    body := some (Json.obj
      (("error", Json.str message) ::
        match details with
        | none => []
        | some d => [("details", Json.str d)])) }

/-- Model of `util.WriteJsonSuccess`. -/
def writeJsonSuccess (status : Nat) (data : Json) : HttpResponse :=
  { status := status, body := some data }

/-- One candidate row of a refresh (the body of the `for _, country := range
countriesList` loop of `HandleRefresh`): name/capital/region are lowercased,
empty source strings stay unset, `last_refreshed_at` is the shared refresh
instant; the first listed currency is looked up in the rate mapping, and
`estimated_gdp = population * randomMultiplier / rate` when it resolves;
a country with no currencies gets `estimated_gdp` explicitly 0. -/
def buildRow (rates : List (String × Rat)) (randomMultiplier : Rat)
    (refreshTime : Nat) (country : Country) : CountryDBRow :=
  let base : CountryDBRow :=
    { id := 0
      name := lowerAscii country.name
      population := country.population
      capital := if country.capital = "" then none else some (lowerAscii country.capital)
      region := if country.region = "" then none else some (lowerAscii country.region)
      currencyCode := none
      exchangeRate := none
      estimatedGDP := none
      flagURL := if country.flagURL = "" then none else some country.flagURL
      lastRefreshedAt := some refreshTime }
  match country.currencies with
  | [] => { base with estimatedGDP := some (0 : Rat) }
  | cur :: _ =>
    let withCode := { base with currencyCode := some cur.code }
    match lookupRate rates cur.code with
    | some rate =>
      { withCode with
          exchangeRate := some rate
          estimatedGDP := some (((country.population : Rat) * randomMultiplier) / rate) }
    | none => withCode

/-- The candidate batch of one refresh.  `rand i` is the value
`util.RandFloatRange()` yields for the i-th country (drawn fresh per country
per refresh; the bound `1000 ≤ rand i < 2000` holds for the real generator
`min + rand.Float64()*(max-min)` with `min, max := 1000.0, 2000.0`). -/
def buildRows (rates : List (String × Rat)) (rand : Nat → Rat)
    (refreshTime : Nat) (countries : List Country) : List CountryDBRow :=
  countries.enum.map (fun p => buildRow rates (rand p.1) refreshTime p.2)

/-- Model of `ForexHandler.HandleRefresh`, from the point where both fetch results are
in hand.  `countriesRes` / `ratesRes` are the fetch-and-unmarshal outcomes
(`Except.error` = fetch failure, bad HTTP status, read error or unmarshal
failure, collected in `failedURLs`); `now` is the single `time.Now()` captured
before the row loop; `txFail` is the store's failure oracle.  Returns the
database state after the call and the written response. -/
def handleRefresh (countriesRes : Except String (List Country))
    (ratesRes : Except String RatesMap) (rand : Nat → Rat) (now : Nat)
    (txFail : TxStep → Bool) (st : DBState) : DBState × HttpResponse :=
  match countriesRes, ratesRes with
  | Except.error e, Except.error e2 =>
    (st, writeJsonError 503 "External data source unavailable"
      (some ("Could not fetch data from: " ++ e ++ ", " ++ e2)))
  | Except.error e, Except.ok _ =>
    (st, writeJsonError 503 "External data source unavailable"
      (some ("Could not fetch data from: " ++ e)))
  | Except.ok _, Except.error e =>
    (st, writeJsonError 503 "External data source unavailable"
      (some ("Could not fetch data from: " ++ e)))
  | Except.ok countriesList, Except.ok ratesOpt =>
    -- `len(countriesList) == 0 || exchangeData.Rates == nil`
    if countriesList.isEmpty || ratesOpt.isNone then
      (st, writeJsonError 503 "External data source unavailable"
        (some "API returned empty or invalid data"))
    else
      let rowsToInsert := buildRows (ratesOpt.getD []) rand now countriesList
      let res := updateCountries txFail st rowsToInsert now
      if res.2 then
        (res.1, writeJsonSuccess 200
          (Json.obj [("message", Json.str "Database refresh successfully initiated")]))
      else
        (res.1, writeJsonError 500 "Internal server error" none)

/-- The filter construction of `HandleGetCountry` (the list endpoint): empty
query parameters impose no constraint, an empty sort falls back to
`name_asc`. -/
def handlerFilters (region currency sortParam : String) : CountryFilters :=
  { region := if region = "" then none else some region
    currency := if currency = "" then none else some currency
    sortKey := if sortParam = "" then "name_asc" else sortParam }

/-- Model of `ForexHandler.HandleGetCountry` (GET /countries): on a query fault 500,
otherwise 200 with the scanned rows converted by `ToCountryResponses`.  The
row slice travels as a Go slice (`Option (List _)`) to keep the nil/empty
distinction `encoding/json` observes. -/
def handleGetCountries (queryFails : Bool) (st : DBState)
    (region currency sortParam : String) : HttpResponse :=
  if queryFails then writeJsonError 500 "Internal server error" none
  else
    let rows := scanCountries (getCountries st (handlerFilters region currency sortParam))
    writeJsonSuccess 200 (encodeGoSlice encodeCountryResponse (toCountryResponses rows))

/-- Model of `ForexHandler.HandleGetCountryByName`. -/
def handleGetCountryByName (st : DBState) (nameParam : String) : HttpResponse :=
  match getCountryByName st nameParam with
  | Except.error RepoError.notFound => writeJsonError 404 "Country not found" none
  | Except.error RepoError.internal => writeJsonError 500 "Internal server error" none
  | Except.ok c => writeJsonSuccess 200 (encodeCountryResponse c.toResponse)

/-- Model of `ForexHandler.HandleDeleteCountryByName`: `errs.ErrNotFound` becomes 404,
any other delete error 500, success `WriteHeader(204)` with no body. -/
def handleDeleteCountryByName (execFails : Bool) (st : DBState) (nameParam : String) :
    DBState × HttpResponse :=
  let res := deleteByName execFails st nameParam
  match res.2 with
  | Except.error RepoError.notFound => (res.1, writeJsonError 404 "Country not found" none)
  | Except.error RepoError.internal =>
    (res.1, writeJsonError 500 "Internal server error" none)
  | Except.ok _ => (res.1, { status := 204, body := none })

/-- Model of `ForexHandler.HandleStatus`. -/
def handleStatus (st : DBState) : HttpResponse :=
  writeJsonSuccess 200 (encodeStatsResponse (getStats st).toResponse)

/-! ## Fixtures used by concrete witnesses and counterexamples -/

/-- A stored row with a non-null estimated GDP. -/
def rowGdp5 : CountryDBRow :=
  { name := "aland", capital := none, region := none, population := 10,
    currencyCode := none, exchangeRate := none, estimatedGDP := some 5,
    flagURL := none, lastRefreshedAt := some 1 }

/-- A second stored row with a larger estimated GDP. -/
def rowGdp7 : CountryDBRow :=
  { name := "cland", capital := none, region := none, population := 30,
    currencyCode := none, exchangeRate := none, estimatedGDP := some 7,
    flagURL := none, lastRefreshedAt := some 1 }

/-- A stored row whose estimated GDP is null. -/
def rowGdpNull : CountryDBRow :=
  { name := "bland", capital := none, region := none, population := 20,
    currencyCode := none, exchangeRate := none, estimatedGDP := none,
    flagURL := none, lastRefreshedAt := some 1 }

/-- A canonically stored row for the France lookups. -/
def franceRow : CountryDBRow :=
  { name := "france", capital := some "paris", region := some "europe",
    population := 67, currencyCode := some "EUR", exchangeRate := some 1,
    estimatedGDP := some 100, flagURL := none, lastRefreshedAt := some 1 }

/-- A one-row store holding `franceRow`. -/
def franceStore : DBState := { countries := [franceRow], appStatusLastRefreshedAt := none }

/-- A store with one row and a recorded refresh instant. -/
def storeA : DBState := { countries := [rowGdp5], appStatusLastRefreshedAt := some 1 }

/-- A store with a null-GDP and two non-null-GDP rows. -/
def storeMixed : DBState :=
  { countries := [rowGdp5, rowGdpNull, rowGdp7], appStatusLastRefreshedAt := none }

/-- The no-fault store oracle. -/
def noFail : TxStep → Bool := fun _ => false

/-- An oracle that makes the upsert-from-staging statement fail. -/
def failMerge : TxStep → Bool := fun s => s == TxStep.merge

/-- The spec's Testland example country. -/
def testland : Country :=
  { name := "Testland", capital := "", region := "", population := 1000000,
    flagURL := "", currencies := [{ code := "TST" }] }

/-- A source country that lists no currencies. -/
def nocurland : Country :=
  { name := "Nocurland", capital := "", region := "", population := 3,
    flagURL := "", currencies := [] }

/-- Agreement on every non-key column (what `ON DUPLICATE KEY UPDATE`
overwrites). -/
def sameData (s r : CountryDBRow) : Prop :=
  s.capital = r.capital ∧ s.region = r.region ∧ s.population = r.population
  ∧ s.currencyCode = r.currencyCode ∧ s.exchangeRate = r.exchangeRate
  ∧ s.estimatedGDP = r.estimatedGDP ∧ s.flagURL = r.flagURL
  ∧ s.lastRefreshedAt = r.lastRefreshedAt

/-- A second stored row with a null estimated GDP, under a different name. -/
def rowGdpNullD : CountryDBRow :=
  { name := "dland", capital := none, region := none, population := 40,
    currencyCode := none, exchangeRate := none, estimatedGDP := none,
    flagURL := none, lastRefreshedAt := some 1 }

/-- A store with two null-GDP rows and one non-null-GDP row. -/
def storeTwoNulls : DBState :=
  { countries := [rowGdp5, rowGdpNull, rowGdpNullD], appStatusLastRefreshedAt := none }

/-! ## Helper lemmas -/

theorem sqlStrEq_iff (a b : String) : sqlStrEq a b = true ↔ lowerAscii a = lowerAscii b := by
  simp [sqlStrEq]

theorem sqlStrEq_self (a : String) : sqlStrEq a a = true := by
  simp [sqlStrEq]

theorem sqlStrEq_of_lower_eq {s t : String} (h : lowerAscii s = lowerAscii t) :
    sqlStrEq s t = true := by
  simp [sqlStrEq, h]

theorem lower_eq_of_sqlStrEq {s t : String} (h : sqlStrEq s t = true) :
    lowerAscii s = lowerAscii t := by
  simpa [sqlStrEq] using h

theorem sqlStrEq_false_of_ne {s t : String} (h : lowerAscii s ≠ lowerAscii t) :
    sqlStrEq s t = false := by
  simp [sqlStrEq]
  exact h

/-- ci equality propagates along a ci-equal name: if `s` folds like `a` and
`a` does not ci-match `b`, then `s` does not ci-match `b`. -/
theorem sqlStrEq_trans_false {s a b : String} (h1 : sqlStrEq s a = true)
    (h2 : sqlStrEq a b = false) : sqlStrEq s b = false := by
  have e1 := lower_eq_of_sqlStrEq h1
  apply sqlStrEq_false_of_ne
  intro e2
  rw [e1] at e2
  simp [sqlStrEq, e2] at h2

/-- Every candidate row of a refresh carries the shared refresh instant. -/
theorem buildRow_lastRefreshedAt (rates : List (String × Rat)) (r : Rat)
    (now : Nat) (c : Country) : (buildRow rates r now c).lastRefreshedAt = some now := by
  cases hc : c.currencies with
  | nil => simp [buildRow, hc]
  | cons cur rest =>
    cases hlk : lookupRate rates cur.code <;> simp [buildRow, hc, hlk]

/-! ### Staging-step lemmas -/

theorem tempInsertRow_eq {temp : List CountryDBRow} {row : CountryDBRow}
    {temp' : List CountryDBRow} (h : tempInsertRow temp row = some temp') :
    temp' = temp ++ [row] ∧ ∀ r ∈ temp, sqlStrEq r.name row.name = false := by
  unfold tempInsertRow at h
  by_cases ha : temp.any (fun r => sqlStrEq r.name row.name) = true
  · simp [ha] at h
  · rw [Bool.not_eq_true] at ha
    simp only [ha, Bool.false_eq_true, if_false, Option.some.injEq] at h
    refine ⟨h.symm, fun r hr => ?_⟩
    have := List.any_eq_false.mp ha r hr
    exact Bool.not_eq_true _ |>.mp this

theorem insertChunkRows_eq : ∀ {batch temp temp' : List CountryDBRow},
    insertChunkRows temp batch = some temp' → temp' = temp ++ batch := by
  intro batch
  induction batch with
  | nil =>
    intro temp temp' h
    simp [insertChunkRows] at h
    simp [h]
  | cons b bs ih =>
    intro temp temp' h
    rw [insertChunkRows, List.foldlM_cons] at h
    cases hb : tempInsertRow temp b with
    | none => rw [hb] at h; simp at h
    | some t1 =>
      rw [hb] at h
      simp only [Option.bind_eq_bind, Option.some_bind] at h
      have h1 := (tempInsertRow_eq hb).1
      have h2 := ih h
      rw [h2, h1]
      simp

theorem insertChunkRows_nodup : ∀ {batch temp temp' : List CountryDBRow},
    insertChunkRows temp batch = some temp' → ciNodup temp → ciNodup temp' := by
  intro batch
  induction batch with
  | nil =>
    intro temp temp' h hnd
    simp [insertChunkRows] at h
    rwa [← h]
  | cons b bs ih =>
    intro temp temp' h hnd
    rw [insertChunkRows, List.foldlM_cons] at h
    cases hb : tempInsertRow temp b with
    | none => rw [hb] at h; simp at h
    | some t1 =>
      rw [hb] at h
      simp only [Option.bind_eq_bind, Option.some_bind] at h
      obtain ⟨he, hfresh⟩ := tempInsertRow_eq hb
      have hnd1 : ciNodup t1 := by
        rw [he]
        rw [ciNodup, List.pairwise_append]
        exact ⟨hnd, List.pairwise_singleton _ _, fun a ha b hb => by
          simp only [List.mem_singleton] at hb
          rw [hb]
          exact hfresh a ha⟩
      exact ih h hnd1

theorem stage_fold_eq {failChunk : Nat → Bool} :
    ∀ {l : List (Nat × List CountryDBRow)} {acc temp : List CountryDBRow},
    l.foldlM (fun temp p => if failChunk p.1 then none else insertChunkRows temp p.2) acc
      = some temp →
    temp = acc ++ (l.map Prod.snd).flatten := by
  intro l
  induction l with
  | nil =>
    intro acc temp h
    simp [List.foldlM_nil] at h
    simp [h]
  | cons p ps ih =>
    intro acc temp h
    rw [List.foldlM_cons] at h
    by_cases hf : failChunk p.1 = true
    · simp [hf] at h
    · rw [Bool.not_eq_true] at hf
      simp only [hf, Bool.false_eq_true, if_false] at h
      cases hc : insertChunkRows acc p.2 with
      | none => rw [hc] at h; simp at h
      | some a1 =>
        rw [hc] at h
        simp only [Option.bind_eq_bind, Option.some_bind] at h
        have h1 := insertChunkRows_eq hc
        have h2 := ih h
        rw [h2, h1]
        simp

theorem stage_fold_nodup {failChunk : Nat → Bool} :
    ∀ {l : List (Nat × List CountryDBRow)} {acc temp : List CountryDBRow},
    l.foldlM (fun temp p => if failChunk p.1 then none else insertChunkRows temp p.2) acc
      = some temp →
    ciNodup acc → ciNodup temp := by
  intro l
  induction l with
  | nil =>
    intro acc temp h hnd
    simp [List.foldlM_nil] at h
    rwa [← h]
  | cons p ps ih =>
    intro acc temp h hnd
    rw [List.foldlM_cons] at h
    by_cases hf : failChunk p.1 = true
    · simp [hf] at h
    · rw [Bool.not_eq_true] at hf
      simp only [hf, Bool.false_eq_true, if_false] at h
      cases hc : insertChunkRows acc p.2 with
      | none => rw [hc] at h; simp at h
      | some a1 =>
        rw [hc] at h
        simp only [Option.bind_eq_bind, Option.some_bind] at h
        exact ih h (insertChunkRows_nodup hc hnd)

theorem chunksOfAux_flatten {α : Type} (n : Nat) (hn : 0 < n) :
    ∀ (fuel : Nat) (l : List α), l.length ≤ fuel → (chunksOfAux n fuel l).flatten = l := by
  intro fuel
  induction fuel with
  | zero =>
    intro l hl
    have : l = [] := List.eq_nil_of_length_eq_zero (Nat.le_zero.mp hl)
    rw [this]
    rfl
  | succ fuel ih =>
    intro l hl
    cases l with
    | nil => rfl
    | cons x xs =>
      show (((x :: xs).take n :: chunksOfAux n fuel ((x :: xs).drop n)).flatten) = x :: xs
      rw [List.flatten_cons]
      rw [ih ((x :: xs).drop n) (by
        rw [List.length_drop]
        have hx : (x :: xs).length ≤ fuel + 1 := hl
        omega)]
      exact List.take_append_drop n (x :: xs)

theorem chunksOf_flatten {α : Type} (n : Nat) (hn : 0 < n) (l : List α) :
    (chunksOf n l).flatten = l :=
  chunksOfAux_flatten n hn l.length l le_rfl

/-- On success the staging step has inserted exactly the given batch. -/
theorem stageRows_eq {failChunk : Nat → Bool} {rows temp : List CountryDBRow}
    (h : stageRows failChunk rows = some temp) : temp = rows := by
  have he := stage_fold_eq h
  rw [he, List.nil_append]
  have hsnd : ((chunksOf batchSize rows).enum.map Prod.snd) = chunksOf batchSize rows :=
    List.enum_map_snd _
  rw [hsnd]
  exact chunksOf_flatten batchSize (by norm_num [batchSize]) rows

/-- On success the staged rows have pairwise ci-distinct names (the staging
table's primary key would have rejected a duplicate). -/
theorem stageRows_nodup {failChunk : Nat → Bool} {rows temp : List CountryDBRow}
    (h : stageRows failChunk rows = some temp) : ciNodup temp :=
  stage_fold_nodup h List.Pairwise.nil

/-- The modelled `UpdateCountries` either rolls back to the pre-call state or commits the
full merge: the staged batch is the whole row set (ci-distinct), the canonical
table becomes the upsert of all rows, and the status gets the refresh
instant. -/
theorem updateCountries_cases (fail : TxStep → Bool) (st : DBState)
    (rows : List CountryDBRow) (t : Nat) :
    updateCountries fail st rows t = (st, false)
    ∨ (ciNodup rows
        ∧ updateCountries fail st rows t
          = ({ countries := upsertAll st.countries rows,
               appStatusLastRefreshedAt := some t }, true)) := by
  by_cases h1 : fail TxStep.beginTx = true
  · exact Or.inl (by simp [updateCountries, h1])
  by_cases h2 : fail TxStep.dropTemp = true
  · exact Or.inl (by simp [updateCountries, h1, h2])
  by_cases h3 : fail TxStep.createTemp = true
  · exact Or.inl (by simp [updateCountries, h1, h2, h3])
  cases hst : stageRows (fun i => fail (TxStep.chunk i)) rows with
  | none => exact Or.inl (by simp [updateCountries, h1, h2, h3, hst])
  | some temp =>
    have heq := stageRows_eq hst
    subst heq
    by_cases h4 : fail TxStep.merge = true
    · exact Or.inl (by simp [updateCountries, h1, h2, h3, hst, h4])
    by_cases h5 : fail TxStep.updateStatus = true
    · exact Or.inl (by simp [updateCountries, h1, h2, h3, hst, h4, h5])
    by_cases h6 : fail TxStep.commit = true
    · exact Or.inl (by simp [updateCountries, h1, h2, h3, hst, h4, h5, h6])
    exact Or.inr ⟨stageRows_nodup hst,
      by simp [updateCountries, h1, h2, h3, hst, h4, h5, h6]⟩

/-! ### Upsert lemmas -/

theorem upsertRow_mem_self (tbl : List CountryDBRow) (r : CountryDBRow) :
    ∃ s ∈ upsertRow tbl r, sqlStrEq s.name r.name = true ∧ sameData s r := by
  induction tbl with
  | nil =>
    exact ⟨r, by simp [upsertRow], sqlStrEq_self _,
      ⟨rfl, rfl, rfl, rfl, rfl, rfl, rfl, rfl⟩⟩
  | cons old rest ih =>
    by_cases h : sqlStrEq old.name r.name = true
    · refine ⟨{ r with id := old.id, name := old.name }, ?_, h, ?_⟩
      · simp [upsertRow, h]
      · exact ⟨rfl, rfl, rfl, rfl, rfl, rfl, rfl, rfl⟩
    · obtain ⟨s, hs, hname, hdata⟩ := ih
      refine ⟨s, ?_, hname, hdata⟩
      rw [Bool.not_eq_true] at h
      simp only [upsertRow, h, Bool.false_eq_true, if_false]
      exact List.mem_cons_of_mem _ hs

theorem mem_upsertRow_of_ne {s : CountryDBRow} {tbl : List CountryDBRow}
    {r : CountryDBRow} (hs : s ∈ tbl) (hne : sqlStrEq s.name r.name = false) :
    s ∈ upsertRow tbl r := by
  induction tbl with
  | nil => cases hs
  | cons old rest ih =>
    rcases List.mem_cons.mp hs with rfl | hmem
    · simp only [upsertRow, hne, Bool.false_eq_true, if_false]
      exact List.mem_cons_self _ _
    · by_cases h : sqlStrEq old.name r.name = true
      · simp only [upsertRow, h, if_true]
        exact List.mem_cons_of_mem _ hmem
      · rw [Bool.not_eq_true] at h
        simp only [upsertRow, h, Bool.false_eq_true, if_false]
        exact List.mem_cons_of_mem _ (ih hmem)

theorem mem_upsertAll_of_ne {s : CountryDBRow} :
    ∀ {rows tbl : List CountryDBRow}, s ∈ tbl →
    (∀ r ∈ rows, sqlStrEq s.name r.name = false) → s ∈ upsertAll tbl rows := by
  intro rows
  induction rows with
  | nil => intro tbl hs _; exact hs
  | cons a rest ih =>
    intro tbl hs h
    show s ∈ upsertAll (upsertRow tbl a) rest
    exact ih (mem_upsertRow_of_ne hs (h a (List.mem_cons_self _ _)))
      (fun r hr => h r (List.mem_cons_of_mem _ hr))

/-- Each merged row lands in the table: there is a row with a ci-equal name
carrying exactly its non-key data. -/
theorem upsertAll_mem_of_mem : ∀ {rows : List CountryDBRow}, ciNodup rows →
    ∀ (tbl : List CountryDBRow), ∀ r ∈ rows,
    ∃ s ∈ upsertAll tbl rows, sqlStrEq s.name r.name = true ∧ sameData s r := by
  intro rows
  induction rows with
  | nil => intro _ tbl r hr; cases hr
  | cons a rest ih =>
    intro hnd tbl r hr
    rcases List.pairwise_cons.mp hnd with ⟨ha, hrest⟩
    rcases List.mem_cons.mp hr with rfl | hmem
    · obtain ⟨s, hs, hname, hdata⟩ := upsertRow_mem_self tbl r
      refine ⟨s, ?_, hname, hdata⟩
      show s ∈ upsertAll (upsertRow tbl r) rest
      exact mem_upsertAll_of_ne hs (fun r' hr' => sqlStrEq_trans_false hname (ha r' hr'))
    · exact ih hrest (upsertRow tbl a) r hmem

/-! ## Claim C4 -/

/-- C4: in every candidate row a refresh builds, a country with zero
currencies gets `currency_code` and `exchange_rate` unset and `estimated_gdp`
explicitly 0; a country whose first currency code is absent from the rate
mapping gets `currency_code` set but `exchange_rate` and `estimated_gdp` both
unset (never defaulted to 0); hence `currency_code` unset implies
`exchange_rate` unset and `estimated_gdp` is exactly the documented
zero-currency 0. -/
theorem refresh_row_optional_field_invariants (rates : List (String × Rat))
    (r : Rat) (now : Nat) (c : Country) :
    (c.currencies = [] →
      (buildRow rates r now c).currencyCode = none
      ∧ (buildRow rates r now c).exchangeRate = none
      ∧ (buildRow rates r now c).estimatedGDP = some 0)
    ∧ (∀ cur rest, c.currencies = cur :: rest → lookupRate rates cur.code = none →
      (buildRow rates r now c).currencyCode = some cur.code
      ∧ (buildRow rates r now c).exchangeRate = none
      ∧ (buildRow rates r now c).estimatedGDP = none)
    ∧ ((buildRow rates r now c).currencyCode = none →
      (buildRow rates r now c).exchangeRate = none
      ∧ (buildRow rates r now c).estimatedGDP = some 0) := by
  refine ⟨?_, ?_, ?_⟩
  · intro h
    simp [buildRow, h]
  · intro cur rest hcur hlk
    simp [buildRow, hcur, hlk]
  · intro h
    cases hc : c.currencies with
    | nil => simp [buildRow, hc]
    | cons cur rest =>
      exfalso
      cases hlk : lookupRate rates cur.code <;> simp [buildRow, hc, hlk] at h

/-- Witness for C4 at concrete inputs: a zero-currency country and a country
whose code "TST" is absent from an empty rate mapping. -/
theorem refresh_row_optional_field_invariants_witness :
    ((buildRow [] 1500 9 nocurland).currencyCode = none
      ∧ (buildRow [] 1500 9 nocurland).exchangeRate = none
      ∧ (buildRow [] 1500 9 nocurland).estimatedGDP = some 0)
    ∧ ((buildRow [] 1500 9 testland).currencyCode = some "TST"
      ∧ (buildRow [] 1500 9 testland).exchangeRate = none
      ∧ (buildRow [] 1500 9 testland).estimatedGDP = none) :=
  ⟨(refresh_row_optional_field_invariants [] 1500 9 nocurland).1 (by decide),
   (refresh_row_optional_field_invariants [] 1500 9 testland).2.1
     { code := "TST" } [] (by decide) (by decide)⟩

/-! ## Claim C9 -/

/-- C9: each optional field of a serialized country row or stats record
(`capital`, `region`, `currency_code`, `exchange_rate`, `estimated_gdp`,
`flag_url`, `last_refreshed_at`) serializes as JSON `null` exactly when the
underlying value is unset — never as 0 or the empty string — and as its value
otherwise. -/
theorem optional_fields_serialize_as_null (db : CountryDBRow) (s : Stats) :
    jsonField (encodeCountryResponse db.toResponse) "capital"
      = some (encOpt Json.str db.capital)
    ∧ jsonField (encodeCountryResponse db.toResponse) "region"
      = some (encOpt Json.str db.region)
    ∧ jsonField (encodeCountryResponse db.toResponse) "currency_code"
      = some (encOpt Json.str db.currencyCode)
    ∧ jsonField (encodeCountryResponse db.toResponse) "exchange_rate"
      = some (encOpt Json.num db.exchangeRate)
    ∧ jsonField (encodeCountryResponse db.toResponse) "estimated_gdp"
      = some (encOpt Json.num db.estimatedGDP)
    ∧ jsonField (encodeCountryResponse db.toResponse) "flag_url"
      = some (encOpt Json.str db.flagURL)
    ∧ jsonField (encodeCountryResponse db.toResponse) "last_refreshed_at"
      = some (encOpt (fun t => Json.num t) db.lastRefreshedAt)
    ∧ jsonField (encodeStatsResponse s.toResponse) "last_refreshed_at"
      = some (encOpt (fun t => Json.num t) s.lastRefreshedAt)
    ∧ encOpt Json.str (none : Option String) = Json.null
    ∧ encOpt Json.num (none : Option Rat) = Json.null
    ∧ (∀ v : String, encOpt Json.str (some v) = Json.str v)
    ∧ (∀ q : Rat, encOpt Json.num (some q) = Json.num q) :=
  ⟨rfl, rfl, rfl, rfl, rfl, rfl, rfl, rfl, rfl, rfl, fun _ => rfl, fun _ => rfl⟩

/-! ## Claim C5 -/

/-- C5: one timestamp is captured before the batch is built; every candidate
row's `last_refreshed_at` equals it, and on a successful refresh the same
instant is what the merge writes to `RefreshStatus.last_refreshed_at`. -/
theorem refresh_single_timestamp (countriesRes : Except String (List Country))
    (ratesRes : Except String RatesMap) (rand : Nat → Rat) (now : Nat)
    (txFail : TxStep → Bool) (st : DBState) :
    ((handleRefresh countriesRes ratesRes rand now txFail st).2.status = 200 →
      (handleRefresh countriesRes ratesRes rand now txFail st).1.appStatusLastRefreshedAt
        = some now)
    ∧ ∀ rates : List (String × Rat), ∀ cl : List Country,
        ∀ row ∈ buildRows rates rand now cl, row.lastRefreshedAt = some now := by
  constructor
  · intro h200
    cases countriesRes with
    | error e =>
      cases ratesRes <;> simp [handleRefresh, writeJsonError] at h200
    | ok cl =>
      cases ratesRes with
      | error e => simp [handleRefresh, writeJsonError] at h200
      | ok rts =>
        by_cases hguard : (cl.isEmpty || rts.isNone) = true
        · simp [handleRefresh, hguard, writeJsonError] at h200
        · rw [Bool.not_eq_true] at hguard
          rcases updateCountries_cases txFail st (buildRows (rts.getD []) rand now cl) now
            with hcase | ⟨_, hcase⟩
          · simp [handleRefresh, hguard, hcase, writeJsonError] at h200
          · simp [handleRefresh, hguard, hcase]
  · intro rates cl row hrow
    simp only [buildRows, List.mem_map] at hrow
    obtain ⟨p, _, hp⟩ := hrow
    rw [← hp]
    exact buildRow_lastRefreshedAt rates (rand p.1) now p.2

/-- Witness for C5: a concrete successful refresh of one zero-currency
country writes the captured instant 9 to the refresh status. -/
theorem refresh_single_timestamp_witness :
    (handleRefresh (Except.ok [nocurland]) (Except.ok (some [("TST", 2)]))
        (fun _ => 1500) 9 noFail storeA).1.appStatusLastRefreshedAt = some 9 :=
  (refresh_single_timestamp (Except.ok [nocurland]) (Except.ok (some [("TST", 2)]))
    (fun _ => 1500) 9 noFail storeA).1 (by decide)

/-! ## Claim C6 -/

/-- C6: whenever the first currency code resolves to a rate, the refresh sets
`estimated_gdp = population * r / exchange_rate` with the multiplier `r` drawn
from `[1000, 2000)`; and on the spec's Testland input the refresh yields one
row named "testland" with `exchange_rate = 2` and
`estimated_gdp ∈ [500000000, 1000000000)`. -/
theorem estimated_gdp_formula (rates : List (String × Rat)) (r : Rat) (now : Nat)
    (c : Country) (cur : CountryCurrency) (rest : List CountryCurrency) (rate : Rat)
    (hcur : c.currencies = cur :: rest) (hrate : lookupRate rates cur.code = some rate)
    (hr1 : 1000 ≤ r) (hr2 : r < 2000) :
    ((buildRow rates r now c).exchangeRate = some rate
      ∧ (buildRow rates r now c).estimatedGDP
          = some (((c.population : Rat) * r) / rate))
    ∧ ((buildRows [("TST", 2)] (fun _ => r) now [testland]).length = 1
      ∧ ∀ row ∈ buildRows [("TST", 2)] (fun _ => r) now [testland],
          row.name = "testland" ∧ row.exchangeRate = some 2
          ∧ ∃ g, row.estimatedGDP = some g
              ∧ 500000000 ≤ g ∧ g < 1000000000) := by
  have hlk : lookupRate [("TST", (2 : Rat))] "TST" = some 2 := by decide
  have hnm : lowerAscii "Testland" = "testland" := by decide
  have hcur' : testland.currencies = { code := "TST" } :: [] := rfl
  refine ⟨⟨?_, ?_⟩, ?_, ?_⟩
  · simp [buildRow, hcur, hrate]
  · simp [buildRow, hcur, hrate]
  · rfl
  · intro row hrow
    have hrow' : row = buildRow [("TST", 2)] r now testland := by
      simpa [buildRows] using hrow
    subst hrow'
    refine ⟨?_, ?_, ((1000000 : Rat) * r) / 2, ?_, ?_, ?_⟩
    · simp [buildRow, hcur', hlk, testland, hnm]
    · simp [buildRow, hcur', hlk]
    · norm_num [buildRow, hcur', hlk, testland]
    · have he : ((1000000 : Rat) * r) / 2 = 500000 * r := by ring
      rw [he]
      linarith
    · have he : ((1000000 : Rat) * r) / 2 = 500000 * r := by ring
      rw [he]
      linarith

/-- Witness for C6 at the concrete multiplier 1500: exchange rate 2 and
estimated GDP `1000000 * 1500 / 2` within the asserted bounds. -/
theorem estimated_gdp_formula_witness :
    (((buildRow [("TST", 2)] 1500 9 testland).exchangeRate = some 2
      ∧ (buildRow [("TST", 2)] 1500 9 testland).estimatedGDP
          = some (((testland.population : Rat) * 1500) / 2))
    ∧ ((buildRows [("TST", 2)] (fun _ => (1500 : Rat)) 9 [testland]).length = 1
      ∧ ∀ row ∈ buildRows [("TST", 2)] (fun _ => (1500 : Rat)) 9 [testland],
          row.name = "testland" ∧ row.exchangeRate = some 2
          ∧ ∃ g, row.estimatedGDP = some g
              ∧ 500000000 ≤ g ∧ g < 1000000000)) :=
  estimated_gdp_formula [("TST", 2)] 1500 9 testland { code := "TST" } [] 2
    rfl (by decide) (by norm_num) (by norm_num)

/-! ## Claim C1 -/

/-- C1: the Store merge is atomic.  If any transactional step fails (dropping
or creating the staging table, any chunk's bulk insert, the upsert, the status
update, or the commit) the countries table and
`RefreshStatus.last_refreshed_at` are exactly as before the call; on success
the table is the upsert of every given row (each row inserted or fully
overwritten by its ci name key) and the status equals the given timestamp; and
the call never commits a proper subset of the batch. -/
theorem update_countries_atomic (fail : TxStep → Bool) (st : DBState)
    (rows : List CountryDBRow) (t : Nat) :
    ((updateCountries fail st rows t).2 = false →
      (updateCountries fail st rows t).1 = st)
    ∧ ((updateCountries fail st rows t).2 = true →
        (updateCountries fail st rows t).1.countries = upsertAll st.countries rows
        ∧ (updateCountries fail st rows t).1.appStatusLastRefreshedAt = some t
        ∧ ∀ r ∈ rows, ∃ s ∈ (updateCountries fail st rows t).1.countries,
            sqlStrEq s.name r.name = true ∧ sameData s r)
    ∧ ((updateCountries fail st rows t).1 = st
        ∨ ((updateCountries fail st rows t).1.countries = upsertAll st.countries rows
            ∧ (updateCountries fail st rows t).1.appStatusLastRefreshedAt = some t)) := by
  rcases updateCountries_cases fail st rows t with h | ⟨hnd, h⟩
  · rw [h]
    exact ⟨fun _ => rfl, fun hc => absurd hc (by simp), Or.inl rfl⟩
  · rw [h]
    refine ⟨fun hc => absurd hc (by simp), fun _ => ⟨rfl, rfl, ?_⟩, Or.inr ⟨rfl, rfl⟩⟩
    intro r hr
    exact upsertAll_mem_of_mem hnd st.countries r hr

/-- Witness for C1: a forced upsert failure leaves the concrete store
untouched, and a fault-free run merges the row and stamps the status. -/
theorem update_countries_atomic_witness :
    (updateCountries failMerge storeA [rowGdpNull] 7).1 = storeA
    ∧ (updateCountries noFail storeA [rowGdpNull] 7).1.appStatusLastRefreshedAt = some 7
    ∧ ∀ r ∈ [rowGdpNull],
        ∃ s ∈ (updateCountries noFail storeA [rowGdpNull] 7).1.countries,
          sqlStrEq s.name r.name = true ∧ sameData s r :=
  ⟨(update_countries_atomic failMerge storeA [rowGdpNull] 7).1 (by decide),
   ((update_countries_atomic noFail storeA [rowGdpNull] 7).2.1 (by decide)).2.1,
   ((update_countries_atomic noFail storeA [rowGdpNull] 7).2.1 (by decide)).2.2⟩

/-! ## Claim C3 -/

/-- Counterexample to C3: with a successful countries fetch and a rates
payload whose mapping is present but empty (a rates field holding an empty
object decodes to a non-nil empty Go map, so the nil-map check passes), the refresh
does NOT abort: it merges a row into the store, overwrites
`RefreshStatus.last_refreshed_at`, and answers 200 — while the claim demands
a 503 with zero rows merged and the status unchanged. -/
theorem refresh_empty_rates_counterexample :
    (handleRefresh (Except.ok [testland]) (Except.ok (some [])) (fun _ => 1500) 9
        noFail storeA).2.status = 200
    ∧ (handleRefresh (Except.ok [testland]) (Except.ok (some [])) (fun _ => 1500) 9
        noFail storeA).1.appStatusLastRefreshedAt = some 9
    ∧ (handleRefresh (Except.ok [testland]) (Except.ok (some [])) (fun _ => 1500) 9
        noFail storeA).1.countries.length = 2
    ∧ storeA.appStatusLastRefreshedAt = some 1
    ∧ storeA.countries.length = 1 := by decide

/-- C3 (amended): the refresh aborts entirely — no rows merged, RefreshStatus
unchanged, 503 service-unavailable — when the countries source yields an
empty list or when the rates mapping is absent (a nil map); a
present-but-empty rates mapping does not abort. -/
theorem refresh_aborts_on_empty_sources (cl : List Country) (rts : RatesMap)
    (rand : Nat → Rat) (now : Nat) (txFail : TxStep → Bool) (st : DBState)
    (h : cl = [] ∨ rts = none) :
    handleRefresh (Except.ok cl) (Except.ok rts) rand now txFail st
      = (st, writeJsonError 503 "External data source unavailable"
          (some "API returned empty or invalid data")) := by
  rcases h with h | h <;> subst h <;> simp [handleRefresh]

/-- Witness for C3 (amended): an empty countries list aborts against a
concrete store even though the rates source succeeded. -/
theorem refresh_aborts_on_empty_sources_witness :
    handleRefresh (Except.ok []) (Except.ok (some [("TST", 2)])) (fun _ => 1500) 9
        noFail storeA
      = (storeA, writeJsonError 503 "External data source unavailable"
          (some "API returned empty or invalid data")) :=
  refresh_aborts_on_empty_sources [] (some [("TST", 2)]) (fun _ => 1500) 9 noFail storeA
    (Or.inl rfl)

/-! ## Claim C7 -/

/-- The ci-collated lookup `WHERE name = ?` finds the (unique) stored row for
any casing of its name. -/
theorem find_ci : ∀ {l : List CountryDBRow} {row : CountryDBRow} {s : String},
    ciNodup l → row ∈ l → lowerAscii s = lowerAscii row.name →
    l.find? (fun r => sqlStrEq r.name s) = some row := by
  intro l
  induction l with
  | nil => intro row s _ hmem _; cases hmem
  | cons a rest ih =>
    intro row s hinv hmem hcase
    rcases List.pairwise_cons.mp hinv with ⟨ha, hrest⟩
    rcases List.mem_cons.mp hmem with rfl | hmem'
    · have hp : sqlStrEq row.name s = true := sqlStrEq_of_lower_eq hcase.symm
      simp [List.find?_cons, hp]
    · have hne : sqlStrEq a.name s = false := by
        apply sqlStrEq_false_of_ne
        intro he
        have : sqlStrEq a.name row.name = true :=
          sqlStrEq_of_lower_eq (he.trans hcase)
        rw [ha row hmem'] at this
        exact Bool.false_ne_true this
      simp only [List.find?_cons, hne]
      exact ih hrest hmem' hcase

/-- C7: name lookups and deletes are case-insensitive/canonicalized: for a
stored row, `GetCountryByName` and `DeleteByName` called with any casing of
its name resolve to the same row (names are stored case-folded and the ci
collation matches the canonical key). -/
theorem name_lookup_case_insensitive (st : DBState) (row : CountryDBRow) (s : String)
    (hinv : ciNodup st.countries) (hmem : row ∈ st.countries)
    (hcase : lowerAscii s = lowerAscii row.name) :
    getCountryByName st s = Except.ok row
    ∧ getCountryByName st row.name = Except.ok row
    ∧ (deleteByName false st s).2 = Except.ok ()
    ∧ (deleteByName false st s).1 = (deleteByName false st row.name).1 := by
  have hpe : ∀ t : String, sqlStrEq t s = sqlStrEq t row.name := by
    intro t
    unfold sqlStrEq
    rw [hcase]
  refine ⟨?_, ?_, ?_, ?_⟩
  · unfold getCountryByName
    rw [find_ci hinv hmem hcase]
  · unfold getCountryByName
    rw [find_ci hinv hmem rfl]
  · have hp : sqlStrEq row.name s = true := sqlStrEq_of_lower_eq hcase.symm
    have hpos : 0 < st.countries.countP (fun r => sqlStrEq r.name s) :=
      List.countP_pos_iff.mpr ⟨row, hmem, hp⟩
    have h0 : ¬ st.countries.countP (fun r => sqlStrEq r.name s) = 0 :=
      Nat.pos_iff_ne_zero.mp hpos
    simp [deleteByName, h0]
  · simp only [deleteByName, hpe]

/-- Witness for C7: "France" and "france" resolve and delete the same stored
canonical row. -/
theorem name_lookup_case_insensitive_witness :
    getCountryByName franceStore "France" = Except.ok franceRow
    ∧ getCountryByName franceStore "france" = Except.ok franceRow
    ∧ (deleteByName false franceStore "France").2 = Except.ok ()
    ∧ (deleteByName false franceStore "France").1
        = (deleteByName false franceStore "france").1 :=
  name_lookup_case_insensitive franceStore franceRow "France"
    (List.pairwise_singleton _ _) (List.mem_cons_self _ _) (by decide)

/-! ## Claim C8 -/

/-- C8: deleting an absent name yields the distinct not-found condition,
surfaced as 404 with the store untouched — never a generic internal fault;
deleting a present name succeeds and the endpoint answers 204 with no body;
an underlying persistence fault is the distinguishable 500. -/
theorem delete_not_found_distinct (st : DBState) (name : String) :
    ((∀ r ∈ st.countries, sqlStrEq r.name name = false) →
        (deleteByName false st name).2 = Except.error RepoError.notFound
        ∧ (handleDeleteCountryByName false st name).2
            = writeJsonError 404 "Country not found" none
        ∧ (handleDeleteCountryByName false st name).1 = st)
    ∧ ((∃ r ∈ st.countries, sqlStrEq r.name name = true) →
        (deleteByName false st name).2 = Except.ok ()
        ∧ (handleDeleteCountryByName false st name).2 = { status := 204, body := none })
    ∧ ((deleteByName true st name).2 = Except.error RepoError.internal
        ∧ (handleDeleteCountryByName true st name).2
            = writeJsonError 500 "Internal server error" none) := by
  refine ⟨?_, ?_, ?_⟩
  · intro h
    have h0 : st.countries.countP (fun r => sqlStrEq r.name name) = 0 :=
      List.countP_eq_zero.mpr (fun a ha => by simp [h a ha])
    refine ⟨by simp [deleteByName, h0], ?_, ?_⟩ <;>
      simp [handleDeleteCountryByName, deleteByName, h0]
  · intro ⟨r, hr, hp⟩
    have hpos : 0 < st.countries.countP (fun r => sqlStrEq r.name name) :=
      List.countP_pos_iff.mpr ⟨r, hr, hp⟩
    have h0 : ¬ st.countries.countP (fun r => sqlStrEq r.name name) = 0 :=
      Nat.pos_iff_ne_zero.mp hpos
    constructor <;> simp [handleDeleteCountryByName, deleteByName, h0]
  · constructor <;> simp [handleDeleteCountryByName, deleteByName]

/-- Witness for C8: a concrete absent name gives not-found/404, a present
name gives 204. -/
theorem delete_not_found_distinct_witness :
    ((deleteByName false franceStore "atlantis").2 = Except.error RepoError.notFound
      ∧ (handleDeleteCountryByName false franceStore "atlantis").2
          = writeJsonError 404 "Country not found" none
      ∧ (handleDeleteCountryByName false franceStore "atlantis").1 = franceStore)
    ∧ ((deleteByName false franceStore "france").2 = Except.ok ()
      ∧ (handleDeleteCountryByName false franceStore "france").2
          = { status := 204, body := none }) :=
  ⟨(delete_not_found_distinct franceStore "atlantis").1 (by decide),
   (delete_not_found_distinct franceStore "france").2.1
     ⟨franceRow, List.mem_cons_self _ _, by decide⟩⟩

/-! ## Claim C10 -/

/-- C10: when the store is empty or the filters match no rows, GET /countries
answers 200 with an empty JSON array (never `null`, never 404): the scanning
helper starts from an allocated empty slice and the response conversion
preserves emptiness. -/
theorem get_countries_empty_is_empty_array (st : DBState)
    (region currency sortParam : String)
    (h : st.countries.filter
        (matchesFilters (handlerFilters region currency sortParam)) = []) :
    handleGetCountries false st region currency sortParam
      = writeJsonSuccess 200 (Json.arr []) := by
  unfold handleGetCountries getCountries
  rw [h]
  rfl

/-- Witness for C10: the empty store yields 200 with `[]`. -/
theorem get_countries_empty_is_empty_array_witness :
    handleGetCountries false { countries := [], appStatusLastRefreshedAt := none } "" "" ""
      = writeJsonSuccess 200 (Json.arr []) :=
  get_countries_empty_is_empty_array
    { countries := [], appStatusLastRefreshedAt := none } "" "" "" rfl

/-! ## Claim C2 -/

theorem gdpDescLe_total (a b : CountryDBRow) :
    gdpDescLe a b = true ∨ gdpDescLe b a = true := by
  rcases ha : a.estimatedGDP with _ | x <;> rcases hb : b.estimatedGDP with _ | y <;>
    simp [gdpDescLe, ha, hb]
  exact le_total y x

theorem gdpDescLe_trans {a b c : CountryDBRow} (h1 : gdpDescLe a b = true)
    (h2 : gdpDescLe b c = true) : gdpDescLe a c = true := by
  rcases ha : a.estimatedGDP with _ | x <;> rcases hb : b.estimatedGDP with _ | y <;>
    rcases hc : c.estimatedGDP with _ | z <;> simp_all [gdpDescLe]
  linarith

theorem gdpAscLe_total (a b : CountryDBRow) :
    gdpAscLe a b = true ∨ gdpAscLe b a = true := by
  rcases ha : a.estimatedGDP with _ | x <;> rcases hb : b.estimatedGDP with _ | y <;>
    simp [gdpAscLe, ha, hb]
  exact le_total x y

theorem gdpAscLe_trans {a b c : CountryDBRow} (h1 : gdpAscLe a b = true)
    (h2 : gdpAscLe b c = true) : gdpAscLe a c = true := by
  rcases ha : a.estimatedGDP with _ | x <;> rcases hb : b.estimatedGDP with _ | y <;>
    rcases hc : c.estimatedGDP with _ | z <;> simp_all [gdpAscLe]
  linarith

theorem gdpDescLe_none_left {a b : CountryDBRow} (h : gdpDescLe a b = true)
    (ha : a.estimatedGDP = none) : b.estimatedGDP = none := by
  rcases hb : b.estimatedGDP with _ | y
  · rfl
  · simp [gdpDescLe, ha, hb] at h

theorem gdpDescLe_some_some {a b : CountryDBRow} {x y : Rat}
    (h : gdpDescLe a b = true) (ha : a.estimatedGDP = some x)
    (hb : b.estimatedGDP = some y) : y ≤ x := by
  simpa [gdpDescLe, ha, hb] using h

theorem gdpAscLe_none_right {a b : CountryDBRow} (h : gdpAscLe a b = true)
    (hb : b.estimatedGDP = none) : a.estimatedGDP = none := by
  rcases ha : a.estimatedGDP with _ | x
  · rfl
  · simp [gdpAscLe, ha, hb] at h

theorem gdpAscLe_some_some {a b : CountryDBRow} {x y : Rat}
    (h : gdpAscLe a b = true) (ha : a.estimatedGDP = some x)
    (hb : b.estimatedGDP = some y) : x ≤ y := by
  simpa [gdpAscLe, ha, hb] using h

instance instTotalGdpDescRel : IsTotal CountryDBRow (fun a b => gdpDescLe a b = true) :=
  ⟨gdpDescLe_total⟩

instance instTransGdpDescRel : IsTrans CountryDBRow (fun a b => gdpDescLe a b = true) :=
  ⟨fun _ _ _ => gdpDescLe_trans⟩

instance instTotalGdpAscRel : IsTotal CountryDBRow (fun a b => gdpAscLe a b = true) :=
  ⟨gdpAscLe_total⟩

instance instTransGdpAscRel : IsTrans CountryDBRow (fun a b => gdpAscLe a b = true) :=
  ⟨fun _ _ _ => gdpAscLe_trans⟩

theorem pairwise_sort_gdpDesc (l : List CountryDBRow) :
    (List.insertionSort (fun a b => gdpDescLe a b = true) l).Pairwise
      (fun a b => gdpDescLe a b = true) :=
  List.sorted_insertionSort _ l

theorem pairwise_sort_gdpAsc (l : List CountryDBRow) :
    (List.insertionSort (fun a b => gdpAscLe a b = true) l).Pairwise
      (fun a b => gdpAscLe a b = true) :=
  List.sorted_insertionSort _ l

theorem getCountries_gdp_desc_pairwise (st : DBState) (f : CountryFilters)
    (hk : f.sortKey = "gdp_desc") :
    (getCountries st f).Pairwise (fun a b => gdpDescLe a b = true) := by
  have h := pairwise_sort_gdpDesc (st.countries.filter (matchesFilters f))
  unfold getCountries sortCountries
  rw [hk]
  exact h

theorem getCountries_gdp_asc_pairwise (st : DBState) (f : CountryFilters)
    (hk : f.sortKey = "gdp_asc") :
    (getCountries st f).Pairwise (fun a b => gdpAscLe a b = true) := by
  have h := pairwise_sort_gdpAsc (st.countries.filter (matchesFilters f))
  unfold getCountries sortCountries
  rw [hk]
  exact h

theorem getTop5_pairwise (st : DBState) :
    (getTop5ByGDP st).Pairwise (fun a b => gdpDescLe a b = true) := by
  unfold getTop5ByGDP
  exact List.Pairwise.sublist (List.take_sublist 5 _) (pairwise_sort_gdpDesc st.countries)

/-- Counterexample to C2: under `gdp_asc` the code orders by
`estimated_gdp IS NULL DESC` (NULLS FIRST, as its own comment says): on a
store holding non-null-GDP and null-GDP rows, the null row comes out first,
before every real value — the claim requires it after them in both
directions. -/
theorem gdp_sort_nulls_counterexample :
    getCountries storeMixed { region := none, currency := none, sortKey := "gdp_asc" }
      = [rowGdpNull, rowGdp5, rowGdp7]
    ∧ rowGdpNull.estimatedGDP = none
    ∧ rowGdp5.estimatedGDP = some 5
    ∧ rowGdp7.estimatedGDP = some 7 := by decide

/-- C2 (amended): `gdp_desc` and TopNByGDP place every null-estimated_gdp row
after every non-null row with the non-null group descending, but `gdp_asc`
places every null row BEFORE every non-null row (NULLS FIRST) with the
non-null group ascending. -/
theorem gdp_sort_null_placement (st : DBState) (f : CountryFilters) :
    (f.sortKey = "gdp_desc" →
      ∀ i j : Fin (getCountries st f).length, i < j →
        (((getCountries st f).get i).estimatedGDP = none →
          ((getCountries st f).get j).estimatedGDP = none)
        ∧ ∀ x y : Rat, ((getCountries st f).get i).estimatedGDP = some x →
            ((getCountries st f).get j).estimatedGDP = some y → y ≤ x)
    ∧ (f.sortKey = "gdp_asc" →
      ∀ i j : Fin (getCountries st f).length, i < j →
        (((getCountries st f).get j).estimatedGDP = none →
          ((getCountries st f).get i).estimatedGDP = none)
        ∧ ∀ x y : Rat, ((getCountries st f).get i).estimatedGDP = some x →
            ((getCountries st f).get j).estimatedGDP = some y → x ≤ y)
    ∧ (∀ i j : Fin (getTop5ByGDP st).length, i < j →
        (((getTop5ByGDP st).get i).estimatedGDP = none →
          ((getTop5ByGDP st).get j).estimatedGDP = none)
        ∧ ∀ x y : Rat, ((getTop5ByGDP st).get i).estimatedGDP = some x →
            ((getTop5ByGDP st).get j).estimatedGDP = some y → y ≤ x) := by
  refine ⟨?_, ?_, ?_⟩
  · intro hk i j hij
    have hrel := List.pairwise_iff_get.mp (getCountries_gdp_desc_pairwise st f hk) i j hij
    exact ⟨fun hnone => gdpDescLe_none_left hrel hnone,
           fun x y hx hy => gdpDescLe_some_some hrel hx hy⟩
  · intro hk i j hij
    have hrel := List.pairwise_iff_get.mp (getCountries_gdp_asc_pairwise st f hk) i j hij
    exact ⟨fun hnone => gdpAscLe_none_right hrel hnone,
           fun x y hx hy => gdpAscLe_some_some hrel hx hy⟩
  · intro i j hij
    have hrel := List.pairwise_iff_get.mp (getTop5_pairwise st) i j hij
    exact ⟨fun hnone => gdpDescLe_none_left hrel hnone,
           fun x y hx hy => gdpDescLe_some_some hrel hx hy⟩

/-- Witness for C2 (amended): in the ascending sort of a concrete store a
null-GDP row at position 1 forces position 0 to be null-GDP as well. -/
theorem gdp_sort_null_placement_witness :
    ((getCountries storeTwoNulls
        { region := none, currency := none, sortKey := "gdp_asc" }).get
      ⟨0, by decide⟩).estimatedGDP = none :=
  ((gdp_sort_null_placement storeTwoNulls
      { region := none, currency := none, sortKey := "gdp_asc" }).2.1 rfl
    ⟨0, by decide⟩ ⟨1, by decide⟩ (by decide)).1 (by decide)

end Forex
